import Mathlib

/-!
Verification of the cart state manager of the OctoCAT Supply application
(`src/frontend/src/context/CartContext.tsx`).

The cart state is an ordered list of line items.  JavaScript numbers are
modelled as rationals (`ℚ`): every arithmetic operation the cart performs
(addition, multiplication, comparison) is exact on the values the
specification discusses, and `ℚ` keeps the model executable.  Stateful React
operations (the `setItems` updaters) are modelled as pure functions from the
previous item list to the next one, exactly as the updater closures are
written in the source.  The platform facilities (`localStorage`,
`JSON.parse`, `JSON.stringify`) are passed in explicitly or modelled on a
JSON value type.
-/

namespace Cart

/-- The `CartItem` interface of `CartContext.tsx`: one product entry with its
quantity and price snapshot.  `imageUrl` and `discount` are optional fields. -/
structure CartItem where
  productId : ℚ
  name : String
  price : ℚ
  quantity : ℚ
  imageUrl : Option String
  discount : Option ℚ
  deriving Repr, DecidableEq

/-- The product descriptor accepted by `addItem` in `CartContext.tsx`. -/
structure Product where
  productId : ℚ
  name : String
  price : ℚ
  imgName : Option String
  discount : Option ℚ
  deriving Repr, DecidableEq

/-- Derived value `totalItems` from `CartContext.tsx` line 51:
`items.reduce((sum, item) => sum + item.quantity, 0)`. -/
def totalItems (items : List CartItem) : ℚ :=
  items.foldl (fun sum item => sum + item.quantity) 0

/-- Derived value `subtotal` from `CartContext.tsx` lines 53-56.  The source
computes `item.discount ? item.price * (1 - item.discount) : item.price`: a
JavaScript conditional on the truthiness of `discount`, so an absent
(`undefined`) discount and a present discount equal to `0` both fall to the
plain price. -/
def subtotal (items : List CartItem) : ℚ :=
  items.foldl (fun sum item =>
    let itemPrice :=
      match item.discount with
      | none => item.price
      | some d => if d = 0 then item.price else item.price * (1 - d)
    sum + itemPrice * item.quantity) 0

/-- Derived value `shipping` from `CartContext.tsx` line 58:
`subtotal >= 100 ? 0 : 25`. -/
def shipping (items : List CartItem) : ℚ :=
  if 100 ≤ subtotal items then 0 else 25

/-- Derived value `total` from `CartContext.tsx` line 59:
`subtotal + shipping`. -/
def total (items : List CartItem) : ℚ :=
  subtotal items + shipping items

/-- Operation `addItem` from `CartContext.tsx` lines 61-82: if an item with
the same `productId` is found, every item with that id gets its quantity
increased by `quantity`; otherwise a new item built from the descriptor is
appended. -/
def addItem (items : List CartItem) (product : Product) (quantity : ℚ) :
    List CartItem :=
  match items.find? (fun item => decide (item.productId = product.productId)) with
  | some _ =>
      items.map (fun item =>
        if item.productId = product.productId then
          { item with quantity := item.quantity + quantity }
        else item)
  | none =>
      items ++ [{ productId := product.productId, name := product.name,
                  price := product.price, quantity := quantity,
                  imageUrl := product.imgName, discount := product.discount }]

/-- Operation `removeItem` from `CartContext.tsx` lines 84-86:
`prevItems.filter(item => item.productId !== productId)`. -/
def removeItem (items : List CartItem) (productId : ℚ) : List CartItem :=
  items.filter (fun item => decide (item.productId ≠ productId))

/-- Operation `updateQuantity` from `CartContext.tsx` lines 88-101: quantity
`≤ 0` delegates to `removeItem`; otherwise every item with the given id has
its quantity replaced. -/
def updateQuantity (items : List CartItem) (productId : ℚ) (quantity : ℚ) :
    List CartItem :=
  if quantity ≤ 0 then
    removeItem items productId
  else
    items.map (fun item =>
      if item.productId = productId then { item with quantity := quantity }
      else item)

/-- Operation `clearCart` from `CartContext.tsx` lines 103-105:
`setItems([])`. -/
def clearCart (_items : List CartItem) : List CartItem := []

/-- The uniqueness invariant of the specification: at most one line item per
`productId` within a cart. -/
def UniqueKeys (items : List CartItem) : Prop :=
  (items.map CartItem.productId).Nodup

instance : DecidablePred UniqueKeys := fun items =>
  inferInstanceAs (Decidable ((items.map CartItem.productId).Nodup))

/-- The cart-loading effect from `CartContext.tsx` lines 32-43, with the
platform facilities passed in explicitly: `saved` is the result of
`localStorage.getItem('octocat-cart')` and `parse` is `JSON.parse`, which
either returns a deserialized item list or throws (`Except.error`).  The
source guards the whole load with `if (savedCart)`, a JavaScript truthiness
check: a missing entry (`null`) and the empty string are both falsy, so for
them nothing is parsed and nothing is removed.  The result pairs the initial
item list with a flag recording whether
`localStorage.removeItem('octocat-cart')` was called.  The function is total:
the `catch` block converts every parse failure into the empty cart, so no
error propagates to the caller. -/
def loadCart (parse : String → Except String (List CartItem))
    (saved : Option String) : List CartItem × Bool :=
  match saved with
  | none => ([], false)
  | some s =>
      if s = "" then ([], false)
      else
        match parse s with
        | Except.ok parsedCart => (parsedCart, false)
        | Except.error _ => ([], true)

/-- A parse oracle that throws on every input, as `JSON.parse` does on the
empty string and on `'invalid-json'`. -/
def failParse : String → Except String (List CartItem) :=
  fun _ => Except.error "Unexpected end of JSON input"

/-- The specification's formula for the discounted unit price of a line item:
`unitPrice × (1 − discountFraction)` when a discount fraction is present,
`unitPrice` otherwise.  Stated from the spec's words, to be compared with the
truthiness-based computation inside `subtotal`. -/
def specUnitPrice (item : CartItem) : ℚ :=
  match item.discount with
  | some d => item.price * (1 - d)
  | none => item.price

/-- Reachable cart states: an initial state produced by the load effect (for
some platform parse function and stored string), followed by any sequence of
the four mutations. -/
inductive Reachable : List CartItem → Prop where
  | load (parse : String → Except String (List CartItem)) (saved : Option String) :
      Reachable (loadCart parse saved).1
  | add (items : List CartItem) (p : Product) (q : ℚ) :
      Reachable items → Reachable (addItem items p q)
  | remove (items : List CartItem) (pid : ℚ) :
      Reachable items → Reachable (removeItem items pid)
  | update (items : List CartItem) (pid q : ℚ) :
      Reachable items → Reachable (updateQuantity items pid q)
  | clear (items : List CartItem) :
      Reachable items → Reachable (clearCart items)

/-- States reachable from a given start state by mutations only. -/
inductive ReachableFrom (s : List CartItem) : List CartItem → Prop where
  | refl : ReachableFrom s s
  | add (items : List CartItem) (p : Product) (q : ℚ) :
      ReachableFrom s items → ReachableFrom s (addItem items p q)
  | remove (items : List CartItem) (pid : ℚ) :
      ReachableFrom s items → ReachableFrom s (removeItem items pid)
  | update (items : List CartItem) (pid q : ℚ) :
      ReachableFrom s items → ReachableFrom s (updateQuantity items pid q)
  | clear (items : List CartItem) :
      ReachableFrom s items → ReachableFrom s (clearCart items)

/-- JSON values, as exchanged with the platform pair
`JSON.parse`/`JSON.stringify`.  Numbers are modelled as rationals. -/
inductive Json where
  | num (q : ℚ)
  | str (s : String)
  | bool (b : Bool)
  | null
  | arr (elems : List Json)
  | obj (fields : List (String × Json))

/-- Effect of `JSON.stringify` on one `CartItem` object, at the level of the
JSON value it writes: keys appear in the declaration order of the object
literal in `addItem`, and keys whose value is `undefined` (`imageUrl`,
`discount` when absent) are omitted, as `JSON.stringify` omits
undefined-valued properties. -/
def encodeItem (item : CartItem) : Json :=
  Json.obj ([("productId", Json.num item.productId), ("name", Json.str item.name),
             ("price", Json.num item.price), ("quantity", Json.num item.quantity)]
    ++ (match item.imageUrl with
        | some u => [("imageUrl", Json.str u)]
        | none => [])
    ++ (match item.discount with
        | some d => [("discount", Json.num d)]
        | none => []))

/-- The snapshot written to `localStorage` under `'octocat-cart'`:
`JSON.stringify(items)`, an array of the item objects in order. -/
def encodeSnapshot (items : List CartItem) : Json :=
  Json.arr (items.map encodeItem)

/-- Modelled from the spec: the code adopts the value returned by `JSON.parse`
verbatim, and the restored object is then read through the `CartItem` field
set (spec §3/§6: `productId`, `name`, `price`, `quantity`, optional
`imageUrl`, optional `discount`); a missing optional key reads as
`undefined`, i.e. `none`. -/
def decodeItem (j : Json) : Option CartItem :=
  match j with
  | Json.obj fields =>
      match fields.lookup "productId", fields.lookup "name",
            fields.lookup "price", fields.lookup "quantity" with
      | some (Json.num pid), some (Json.str nm), some (Json.num pr), some (Json.num qt) =>
          let img := match fields.lookup "imageUrl" with
            | some (Json.str u) => some u
            | _ => none
          let disc := match fields.lookup "discount" with
            | some (Json.num d) => some d
            | _ => none
          some ⟨pid, nm, pr, qt, img, disc⟩
      | _, _, _, _ => none
  | _ => none

/-- Modelled from the spec: element-wise reading of a restored snapshot array
as an ordered sequence of line items. -/
def decodeItems : List Json → Option (List CartItem)
  | [] => some []
  | e :: es =>
      match decodeItem e, decodeItems es with
      | some item, some rest => some (item :: rest)
      | _, _ => none

/-- Modelled from the spec: reading a whole restored snapshot, which must be
an array of line-item records. -/
def decodeSnapshot (j : Json) : Option (List CartItem) :=
  match j with
  | Json.arr elems => decodeItems elems
  | _ => none

/-- A concrete cart state with a duplicated `productId`, as a snapshot with
two records sharing `productId = 1` would deserialize. -/
def dupState : List CartItem :=
  [⟨1, "a", 5, 1, none, none⟩, ⟨1, "b", 6, 1, none, none⟩]

theorem subtotal_foldl (items : List CartItem) (a : ℚ) :
    items.foldl (fun sum item =>
      let itemPrice :=
        match item.discount with
        | none => item.price
        | some d => if d = 0 then item.price else item.price * (1 - d)
      sum + itemPrice * item.quantity) a
      = a + (items.map (fun item => item.quantity * specUnitPrice item)).sum := by
  induction items generalizing a with
  | nil => simp
  | cons x xs ih =>
      simp only [List.foldl_cons, List.map_cons, List.sum_cons, ih]
      cases hd : x.discount with
      | none => simp [specUnitPrice, hd]; ring
      | some d =>
          by_cases h0 : d = 0
          · simp [specUnitPrice, hd, h0]; ring
          · simp [specUnitPrice, hd, h0]; ring

theorem map_eq_self_of {α : Type} (l : List α) (f : α → α) (h : ∀ x ∈ l, f x = x) :
    l.map f = l := by
  induction l with
  | nil => rfl
  | cons x xs ih =>
      simp only [List.map_cons, h x (List.mem_cons_self x xs)]
      rw [ih (fun y hy => h y (List.mem_cons_of_mem x hy))]

/-- In a cart satisfying the uniqueness invariant, filtering for the key of a
member item yields exactly that item. -/
theorem filter_key_singleton (items : List CartItem) (hu : UniqueKeys items)
    (it : CartItem) (hmem : it ∈ items) (pid : ℚ) (hid : it.productId = pid) :
    items.filter (fun x => decide (x.productId = pid)) = [it] := by
  induction items with
  | nil => cases hmem
  | cons y ys ih =>
      have hu' : UniqueKeys ys := by
        have := hu
        simp [UniqueKeys, List.nodup_cons] at this
        exact this.2
      have hynotin : y.productId ∉ ys.map CartItem.productId := by
        have := hu
        simp [UniqueKeys, List.nodup_cons] at this
        simpa using this.1
      rcases List.mem_cons.mp hmem with heq | hmem'
      · subst heq
        rw [List.filter_cons_of_pos (by simpa using hid)]
        have hrest : ys.filter (fun x => decide (x.productId = pid)) = [] := by
          rw [List.filter_eq_nil_iff]
          intro a ha
          simp only [decide_eq_true_eq]
          intro hapid
          exact hynotin (by
            rw [hid, ← hapid] at *
            exact List.mem_map.mpr ⟨a, ha, hapid.symm ▸ rfl⟩)
        rw [hrest]
      · have hyne : y.productId ≠ pid := by
          intro hy
          apply hynotin
          rw [hy, ← hid]
          exact List.mem_map.mpr ⟨it, hmem', rfl⟩
        rw [List.filter_cons_of_neg (by simpa using hyne)]
        exact ih hu' hmem'

/-- Keys after `addItem`: either unchanged (repeat add) or the new key is
appended and was not present before. -/
theorem addItem_keys_or (items : List CartItem) (p : Product) (q : ℚ) :
    (addItem items p q).map CartItem.productId = items.map CartItem.productId ∨
    ((addItem items p q).map CartItem.productId
        = items.map CartItem.productId ++ [p.productId] ∧
      p.productId ∉ items.map CartItem.productId) := by
  rw [addItem]
  cases hf : items.find? (fun item => decide (item.productId = p.productId)) with
  | some found =>
      left
      rw [List.map_map]
      apply List.map_congr_left
      intro x _
      by_cases hx : x.productId = p.productId <;> simp [hx]
  | none =>
      right
      constructor
      · simp
      · intro hmem
        rcases List.mem_map.mp hmem with ⟨x, hxmem, hxid⟩
        have := List.find?_eq_none.mp hf x hxmem
        simp [hxid] at this

theorem addItem_uniqueKeys (items : List CartItem) (p : Product) (q : ℚ)
    (hu : UniqueKeys items) : UniqueKeys (addItem items p q) := by
  rcases addItem_keys_or items p q with heq | ⟨heq, hnotin⟩
  · unfold UniqueKeys
    rw [heq]
    exact hu
  · unfold UniqueKeys
    rw [heq]
    have hn : (items.map CartItem.productId).Nodup := hu
    simp [List.nodup_append, hnotin, hn]

theorem removeItem_uniqueKeys (items : List CartItem) (pid : ℚ)
    (hu : UniqueKeys items) : UniqueKeys (removeItem items pid) :=
  hu.sublist (List.Sublist.map CartItem.productId (List.filter_sublist items))

theorem updateQuantity_uniqueKeys (items : List CartItem) (pid q : ℚ)
    (hu : UniqueKeys items) : UniqueKeys (updateQuantity items pid q) := by
  rw [updateQuantity]
  by_cases hq : q ≤ 0
  · rw [if_pos hq]
    exact removeItem_uniqueKeys items pid hu
  · rw [if_neg hq]
    unfold UniqueKeys
    rw [List.map_map]
    have : (CartItem.productId ∘ fun item =>
        if item.productId = pid then { item with quantity := q } else item)
        = CartItem.productId := by
      funext x
      by_cases hx : x.productId = pid <;> simp [hx]
    rw [this]
    exact hu

theorem decodeItem_encodeItem (item : CartItem) :
    decodeItem (encodeItem item) = some item := by
  obtain ⟨pid, nm, pr, qt, img, disc⟩ := item
  cases img <;> cases disc <;> rfl

/-- Claim C1: for every cart state, `subtotal` equals the sum over all line
items of quantity times the discounted unit price — `unitPrice × (1 −
discountFraction)` when a discount fraction is present, `unitPrice`
otherwise; in particular one item priced 100 with discount fraction 0.25 and
quantity 2 gives subtotal 150. -/
theorem cart_C1 (items : List CartItem) :
    subtotal items = (items.map (fun item => item.quantity * specUnitPrice item)).sum ∧
    subtotal [⟨1, "Discounted Product", 100, 2, none, some (1/4)⟩] = 150 := by
  constructor
  · simpa [subtotal] using subtotal_foldl items 0
  · norm_num [subtotal]

/-- Claim C2: for every cart state, the shipping fee is 0 when the subtotal
is at least 100 and exactly 25 when it is below 100 (boundary inclusive at
100: subtotal 99.99 gives fee 25, subtotal 100 gives fee 0), and the total
equals subtotal plus shipping fee. -/
theorem cart_C2 (items : List CartItem) :
    (100 ≤ subtotal items → shipping items = 0) ∧
    (subtotal items < 100 → shipping items = 25) ∧
    total items = subtotal items + shipping items ∧
    subtotal [⟨1, "A", 9999/100, 1, none, none⟩] = 9999/100 ∧
    shipping [⟨1, "A", 9999/100, 1, none, none⟩] = 25 ∧
    subtotal [⟨2, "B", 100, 1, none, none⟩] = 100 ∧
    shipping [⟨2, "B", 100, 1, none, none⟩] = 0 := by
  refine ⟨?_, ?_, rfl, ?_, ?_, ?_, ?_⟩
  · intro h; simp [shipping, h]
  · intro h; simp [shipping, not_le.mpr h]
  · norm_num [subtotal]
  · norm_num [shipping, subtotal]
  · norm_num [subtotal]
  · norm_num [shipping, subtotal]

theorem cart_C2_witness :
    shipping [⟨2, "B", (100 : ℚ), 1, none, none⟩] = 0 ∧
    shipping ([] : List CartItem) = 25 :=
  ⟨(cart_C2 [⟨2, "B", (100 : ℚ), 1, none, none⟩]).1 (by norm_num [subtotal]),
   (cart_C2 ([] : List CartItem)).2.1 (by norm_num [subtotal])⟩

/-- Claim C3: in a cart (satisfying the spec §3 key-uniqueness invariant)
that contains a line item with the given `productId`, a subsequent `addItem`
with that id leaves exactly one line item for that id, with quantity
increased by the supplied amount and all other fields frozen at the first
add; adding quantities `q1` then `q2` from empty yields one line item with
quantity `q1 + q2`. -/
theorem cart_C3 (items : List CartItem) (p : Product) (q : ℚ)
    (hu : UniqueKeys items) (it : CartItem) (hmem : it ∈ items)
    (hid : it.productId = p.productId) :
    (addItem items p q).filter (fun x => decide (x.productId = p.productId)) =
      [{ it with quantity := it.quantity + q }] ∧
    ∀ q1 q2 : ℚ, addItem (addItem [] p q1) p q2 =
      [{ productId := p.productId, name := p.name, price := p.price,
         quantity := q1 + q2, imageUrl := p.imgName, discount := p.discount }] := by
  constructor
  · have hfind : items.find? (fun item => decide (item.productId = p.productId)) ≠ none := by
      intro hnone
      have := List.find?_eq_none.mp hnone it hmem
      simp [hid] at this
    rw [addItem]
    cases hf : items.find? (fun item => decide (item.productId = p.productId)) with
    | none => exact absurd hf hfind
    | some found =>
        have hcomm :
            (items.map (fun item =>
                if item.productId = p.productId then { item with quantity := item.quantity + q }
                else item)).filter (fun x => decide (x.productId = p.productId))
            = (items.filter ((fun x => decide (x.productId = p.productId)) ∘ (fun item =>
                if item.productId = p.productId then { item with quantity := item.quantity + q }
                else item))).map (fun item =>
                if item.productId = p.productId then { item with quantity := item.quantity + q }
                else item) :=
          List.filter_map _ items
        rw [hcomm]
        have hpred : (items.filter ((fun x => decide (x.productId = p.productId)) ∘ (fun item =>
            if item.productId = p.productId then { item with quantity := item.quantity + q }
            else item)))
            = items.filter (fun x => decide (x.productId = p.productId)) := by
          apply List.filter_congr
          intro x _
          by_cases hx : x.productId = p.productId <;> simp [hx]
        rw [hpred, filter_key_singleton items hu it hmem p.productId hid]
        simp [hid]
  · intro q1 q2
    simp [addItem]

theorem cart_C3_witness :
    (addItem [⟨1, "First", 50, 2, some "a.jpg", none⟩] ⟨1, "Second", 60, none, some (1/2)⟩ 3).filter
      (fun x => decide (x.productId = 1)) = [⟨1, "First", 50, 2 + 3, some "a.jpg", none⟩] :=
  (cart_C3 [⟨1, "First", 50, 2, some "a.jpg", none⟩] ⟨1, "Second", 60, none, some (1/2)⟩ 3
    (by decide) ⟨1, "First", 50, 2, some "a.jpg", none⟩ (by decide) rfl).1

/-- Claim C4: `updateQuantity` with quantity `≤ 0` produces the same state as
`removeItem`; with positive quantity it is a no-op when no item carries the
id, and in a cart satisfying the key-uniqueness invariant it replaces the
quantity of the (unique) item carrying the id, keeping its other fields. -/
theorem cart_C4 (items : List CartItem) (pid q : ℚ) :
    (q ≤ 0 → updateQuantity items pid q = removeItem items pid) ∧
    (0 < q → (∀ x ∈ items, x.productId ≠ pid) → updateQuantity items pid q = items) ∧
    (0 < q → UniqueKeys items → ∀ it ∈ items, it.productId = pid →
      (updateQuantity items pid q).filter (fun x => decide (x.productId = pid)) =
        [{ it with quantity := q }]) := by
  refine ⟨?_, ?_, ?_⟩
  · intro h; simp [updateQuantity, h]
  · intro hq habs
    rw [updateQuantity, if_neg (not_le.mpr hq)]
    exact map_eq_self_of _ _ (fun x hx => by simp [habs x hx])
  · intro hq hu it hmem hid
    rw [updateQuantity, if_neg (not_le.mpr hq)]
    have hcomm :
        (items.map (fun item =>
            if item.productId = pid then { item with quantity := q } else item)).filter
          (fun x => decide (x.productId = pid))
        = (items.filter ((fun x => decide (x.productId = pid)) ∘ (fun item =>
            if item.productId = pid then { item with quantity := q } else item))).map
            (fun item => if item.productId = pid then { item with quantity := q } else item) :=
      List.filter_map _ items
    rw [hcomm]
    have hpred : (items.filter ((fun x => decide (x.productId = pid)) ∘ (fun item =>
        if item.productId = pid then { item with quantity := q } else item)))
        = items.filter (fun x => decide (x.productId = pid)) := by
      apply List.filter_congr
      intro x _
      by_cases hx : x.productId = pid <;> simp [hx]
    rw [hpred, filter_key_singleton items hu it hmem pid hid]
    simp [hid]

theorem cart_C4_witness :
    updateQuantity [⟨1, "P", 50, 2, none, none⟩] 1 0 = removeItem [⟨1, "P", 50, 2, none, none⟩] 1 ∧
    updateQuantity [⟨1, "P", 50, 2, none, none⟩] 7 3 = [⟨1, "P", 50, 2, none, none⟩] ∧
    (updateQuantity [⟨1, "P", 50, 2, none, none⟩] 1 5).filter
      (fun x => decide (x.productId = 1)) = [⟨1, "P", 50, 5, none, none⟩] :=
  ⟨(cart_C4 [⟨1, "P", 50, 2, none, none⟩] 1 0).1 le_rfl,
   (cart_C4 [⟨1, "P", 50, 2, none, none⟩] 7 3).2.1 (by norm_num) (by decide),
   (cart_C4 [⟨1, "P", 50, 2, none, none⟩] 1 5).2.2 (by norm_num) (by decide)
     ⟨1, "P", 50, 2, none, none⟩ (by decide) rfl⟩

/-- Claim C5 counterexample: the claim asserts key uniqueness in every
reachable state, across initialization included; but initialization adopts a
successfully parsed snapshot verbatim, so a snapshot whose two records share
`productId = 1` yields a reachable state violating uniqueness. -/
theorem cart_C5_counterexample : Reachable dupState ∧ ¬ UniqueKeys dupState :=
  ⟨Reachable.load (fun _ => Except.ok dupState) (some "snapshot"), by decide⟩

/-- Claim C5 amended: every state reached from a start state satisfying the
key-uniqueness invariant by any sequence of the four mutations (`addItem`,
`removeItem`, `updateQuantity`, `clearCart`) satisfies the invariant; in
particular it holds from the empty initial cart.  Initialization itself can
break it by adopting a duplicate-key snapshot verbatim. -/
theorem cart_C5 (s items : List CartItem) (hu : UniqueKeys s)
    (h : ReachableFrom s items) : UniqueKeys items := by
  induction h with
  | refl => exact hu
  | add its p q _ ih => exact addItem_uniqueKeys its p q ih
  | remove its pid _ ih => exact removeItem_uniqueKeys its pid ih
  | update its pid q _ ih => exact updateQuantity_uniqueKeys its pid q ih
  | clear its _ _ => exact List.nodup_nil

theorem cart_C5_witness :
    UniqueKeys (addItem (addItem [] ⟨1, "P", 50, none, none⟩ 2) ⟨2, "Q", 30, none, none⟩ 1) :=
  cart_C5 [] _ List.nodup_nil
    (ReachableFrom.add _ _ _ (ReachableFrom.add _ _ _ ReachableFrom.refl))

/-- Claim C6 counterexample: the persisted empty string exists and fails to
deserialize (`JSON.parse('')` throws), yet the `if (savedCart)` truthiness
guard of line 34 is falsy for it, so the code never parses it and never
deletes the entry — the load reports no deletion, refuting the claim's
universal "deletes the invalid persisted entry" at this input. -/
theorem cart_C6_counterexample :
    (∃ e, failParse "" = Except.error e) ∧
    loadCart failParse (some "") = ([], false) ∧
    loadCart failParse (some "") ≠ ([], true) :=
  ⟨⟨"Unexpected end of JSON input", rfl⟩, rfl, by decide⟩

/-- Claim C6 amended: for every persisted non-empty string that exists but
fails to deserialize, loading discards it, deletes the persisted entry, and
starts with an empty cart — and, `loadCart` being total, the failure never
propagates to the caller; a missing snapshot also starts empty (deleting
nothing), as does a persisted empty string, which the truthiness guard skips
without deleting its entry. -/
theorem cart_C6 (parse : String → Except String (List CartItem)) (s : String) :
    (s ≠ "" → (∃ e, parse s = Except.error e) → loadCart parse (some s) = ([], true)) ∧
    loadCart parse none = ([], false) ∧
    loadCart parse (some "") = ([], false) := by
  refine ⟨?_, rfl, ?_⟩
  · rintro hne ⟨e, he⟩
    simp [loadCart, hne, he]
  · simp [loadCart]

theorem cart_C6_witness :
    loadCart failParse (some "invalid-json") = ([], true) ∧
    loadCart failParse none = ([], false) :=
  ⟨(cart_C6 failParse "invalid-json").1 (by decide)
      ⟨"Unexpected end of JSON input", rfl⟩,
   (cart_C6 failParse "invalid-json").2.1⟩

/-- Claim C7: serializing any cart snapshot and deserializing it back
reproduces an identical ordered collection of line items — the round trip is
lossless for all defined fields. -/
theorem cart_C7 (items : List CartItem) :
    decodeSnapshot (encodeSnapshot items) = some items := by
  rw [encodeSnapshot, decodeSnapshot]
  induction items with
  | nil => rfl
  | cons item rest ih =>
      simp only [List.map_cons, decodeItems, decodeItem_encodeItem, ih]

/-- Claim C8 counterexample: after `clearCart` the total reads 25 (the flat
shipping fee on a zero subtotal), not 0 as the claim states. -/
theorem cart_C8_counterexample :
    total (clearCart [⟨1, "Product", 30, 3, none, none⟩]) = 25 ∧ (25 : ℚ) ≠ 0 := by
  constructor
  · norm_num [total, clearCart, shipping, subtotal]
  · norm_num

/-- Claim C8 amended: after `clearCart` the collection is empty and the
derived totals read `totalItems = 0`, `subtotal = 0`, shipping fee 25 (the
flat non-free rate on the zero subtotal), and `total = 25`. -/
theorem cart_C8 (items : List CartItem) :
    clearCart items = [] ∧ totalItems (clearCart items) = 0 ∧
    subtotal (clearCart items) = 0 ∧ shipping (clearCart items) = 25 ∧
    total (clearCart items) = 25 := by
  refine ⟨rfl, rfl, rfl, ?_, ?_⟩
  · norm_num [shipping, clearCart, subtotal]
  · norm_num [total, shipping, clearCart, subtotal]

/-- Claim C9: `removeItem` removes every line item carrying the key, keeps
every other item, is the identity when the key is absent, and is idempotent
— so calling it twice on an absent key is a no-op both times. -/
theorem cart_C9 (items : List CartItem) (pid : ℚ) :
    (∀ x ∈ removeItem items pid, x.productId ≠ pid) ∧
    (∀ x ∈ items, x.productId ≠ pid → x ∈ removeItem items pid) ∧
    ((∀ x ∈ items, x.productId ≠ pid) → removeItem items pid = items) ∧
    removeItem (removeItem items pid) pid = removeItem items pid := by
  refine ⟨?_, ?_, ?_, ?_⟩
  · intro x hx
    have := (List.mem_filter.mp hx).2
    simpa using this
  · intro x hx hne
    exact List.mem_filter.mpr ⟨hx, by simpa using hne⟩
  · intro h
    exact List.filter_eq_self.mpr (fun a ha => by simpa using h a ha)
  · simp [removeItem, List.filter_filter]

theorem cart_C9_witness :
    removeItem [⟨1, "Product", 50, 2, none, none⟩] 2 = [⟨1, "Product", 50, 2, none, none⟩] :=
  (cart_C9 [⟨1, "Product", 50, 2, none, none⟩] 2).2.2.1 (by decide)

/-- Claim C10: for a cart containing an item with the given id and a positive
new quantity, `updateQuantity` preserves the length and the position of every
line item; items with a different id are entirely unchanged, and the items
with the id keep their `productId`, `name`, `price`, `imageUrl` and
`discount` fields, only the quantity becoming the new value. -/
theorem cart_C10 (items : List CartItem) (pid q : ℚ) (hq : 0 < q)
    (_hpresent : ∃ it ∈ items, it.productId = pid) :
    (updateQuantity items pid q).length = items.length ∧
    ∀ i : ℕ, ∀ old nw : CartItem, items[i]? = some old →
      (updateQuantity items pid q)[i]? = some nw →
      ((old.productId ≠ pid → nw = old) ∧
       (old.productId = pid → nw.productId = old.productId ∧ nw.name = old.name ∧
         nw.price = old.price ∧ nw.imageUrl = old.imageUrl ∧
         nw.discount = old.discount ∧ nw.quantity = q)) := by
  rw [updateQuantity, if_neg (not_le.mpr hq)]
  refine ⟨List.length_map _ _, ?_⟩
  intro i old nw hold hnw
  rw [List.getElem?_map, hold] at hnw
  simp only [Option.map_some', Option.some_inj] at hnw
  by_cases hcase : old.productId = pid
  · constructor
    · intro hn; exact absurd hcase hn
    · intro _
      rw [← hnw]
      simp [hcase]
  · constructor
    · intro _
      rw [← hnw]
      simp [hcase]
    · intro hc; exact absurd hc hcase

theorem cart_C10_witness :
    (updateQuantity [⟨1, "P", 50, 2, none, none⟩, ⟨2, "Q", 9, 1, none, some (1/10)⟩] 1 5).length
      = 2 ∧
    updateQuantity [⟨1, "P", 50, 2, none, none⟩, ⟨2, "Q", 9, 1, none, some (1/10)⟩] 1 5
      = [⟨1, "P", 50, 5, none, none⟩, ⟨2, "Q", 9, 1, none, some (1/10)⟩] := by
  constructor
  · exact (cart_C10 [⟨1, "P", 50, 2, none, none⟩, ⟨2, "Q", 9, 1, none, some (1/10)⟩] 1 5
      (by norm_num) ⟨⟨1, "P", 50, 2, none, none⟩, by decide, rfl⟩).1
  · norm_num [updateQuantity]

end Cart
